import Mathlib

/-!
Verification of the node-eventsource client core.

The repository ships two variants of the client; the current one is the
incremental, chunk-boundary-agnostic implementation (undici transport, a
`Writable` whose `write` scans bytes for line terminators and feeds each
complete line to `parseEventStreamLine`).  This file is a shallow embedding
of that implementation:

* bytes are `Nat`s, JS strings are byte lists (UTF-8 code units), JS `null`
  is `none`;
* the SSE frame parser and event assembler (`handleResponse`:
  `parseEventStreamLine` and the `Writable.write` scanning loop) become the
  pure functions `parseEventStreamLine`, `scanBytes` and `write`;
* the connection lifecycle of `connect` becomes the transition function
  `connectStep`, producing the trace of observable actions of one attempt;
* the heartbeat watchdog of `resetHeartbeatTimeout` becomes
  `armHeartbeat` / `heartbeatTick` over an explicit timer state.
-/

namespace EventSourceSpec

/-- src: `COLON_CHARACTER = 58`. -/
def COLON_CHARACTER : Nat := 58

/-- src: `SPACE_CHARACTER = 32`. -/
def SPACE_CHARACTER : Nat := 32

/-- src: `LINE_FEED_CHARACTER = 10`. -/
def LINE_FEED_CHARACTER : Nat := 10

/-- src: `CARRIAGE_RETURN_CHARACTER = 13`. -/
def CARRIAGE_RETURN_CHARACTER : Nat := 13

/-- UTF-8 bytes of the JS string literal `'data'`. -/
def strData : List Nat := [100, 97, 116, 97]

/-- UTF-8 bytes of the JS string literal `'event'`. -/
def strEvent : List Nat := [101, 118, 101, 110, 116]

/-- UTF-8 bytes of the JS string literal `'id'`. -/
def strId : List Nat := [105, 100]

/-- UTF-8 bytes of the JS string literal `'message'`. -/
def strMessage : List Nat := [109, 101, 115, 115, 97, 103, 101]

/-- UTF-8 bytes of the header name `'Last-Event-ID'`. -/
def strLastEventID : List Nat := [76, 97, 115, 116, 45, 69, 118, 101, 110, 116, 45, 73, 68]

/-- One emitted event: the emission channel `this.emit(eventName || 'message', ...)`
together with the `{id, name, data}` payload object. -/
structure SSEEvent where
  channel : List Nat
  id : Option (List Nat)
  name : Option (List Nat)
  data : List Nat
deriving DecidableEq

/-- The mutable state closed over by `handleResponse`: the pending record
fields `eventId` / `eventName` / `eventData`, the scanner flag
`discardTrailingNewline`, the instance field `this.lastEventId`, and the
ordered list of events emitted so far.  `eventName` is `none` for JS `null`
and `some []` for the empty string. -/
structure Core where
  eventId : Option (List Nat)
  eventName : Option (List Nat)
  eventData : List Nat
  discardTrailingNewline : Bool
  lastEventId : Option (List Nat)
  events : List SSEEvent
deriving DecidableEq

/-- JS `eventName || 'message'`: both `null` and the empty string are falsy. -/
def channelOf : Option (List Nat) → List Nat
  | none => strMessage
  | some [] => strMessage
  | some s => s

/-- `parseEventStreamLine(buffer, position, fieldLength, lineLength)`.
`lineBuf` is the byte range of one line (terminator excluded); `fieldLength`
is the offset of the first colon in the line or `-1`, exactly as computed by
the terminator scan in `write`.  Note the source guard `fieldLength > 0`
makes its own `emptyValue` path dead code: a line with no colon at all
(`fieldLength = -1`) falls through to the final no-op branch. -/
def parseEventStreamLine (lineBuf : List Nat) (st : Core) : Core :=
  let lineLength : Nat := lineBuf.length
  let fieldLength : Int :=
    match lineBuf.findIdx? (fun c => c == COLON_CHARACTER) with
    | some k => (k : Int)
    | none => -1
  if lineLength = 0 then
    -- blank line: flush the pending record
    let st1 :=
      if 0 < st.eventData.length then
        { st with
          events := st.events ++
            [{ channel := channelOf st.eventName
               id := st.eventId
               name := st.eventName
               data := st.eventData.dropLast }]
          eventData := [] }
      else st
    let st2 :=
      match st1.eventId with
      | some i => { st1 with lastEventId := some i, eventId := none }
      | none => st1
    { st2 with eventName := none }
  else if 0 < fieldLength then
    let emptyValue : Bool := decide (fieldLength < 0)
    let field : List Nat :=
      lineBuf.take (if emptyValue then lineLength else fieldLength.toNat)
    let step : Nat :=
      if emptyValue then lineLength
      else if lineBuf.getD (fieldLength.toNat + 1) LINE_FEED_CHARACTER ≠ SPACE_CHARACTER then
        fieldLength.toNat + 1
      else
        fieldLength.toNat + 2
    let value : List Nat := lineBuf.drop step
    if field = strData then
      { st with eventData := st.eventData ++ value ++ [LINE_FEED_CHARACTER] }
    else if field = strEvent then
      { st with eventName := some value }
    else if field = strId then
      { st with eventId := some value }
    else st
  else st

/-- The scanning loop of `Writable.write`, processed byte by byte: `line` is
the byte range `buffer[position ..]` of the current, not yet terminated line
(the source keeps it in place and moves `position`).  A `\r` terminates the
line and arms `discardTrailingNewline`; a leading `\n` seen while the flag is
armed is dropped; any other byte extends the current line.  Bytes left
without a terminator are returned as the retained partial buffer. -/
def scanBytes (st : Core) (line : List Nat) : List Nat → List Nat × Core
  | [] => (line, st)
  | b :: rest =>
    if st.discardTrailingNewline ∧ b = LINE_FEED_CHARACTER then
      scanBytes { st with discardTrailingNewline := false } line rest
    else if b = CARRIAGE_RETURN_CHARACTER then
      scanBytes
        { parseEventStreamLine line { st with discardTrailingNewline := false } with
          discardTrailingNewline := true } [] rest
    else if b = LINE_FEED_CHARACTER then
      scanBytes (parseEventStreamLine line { st with discardTrailingNewline := false }) [] rest
    else
      scanBytes { st with discardTrailingNewline := false } (line ++ [b]) rest

/-- The state across `write` calls: the retained partial `buffer`
(JS `null` is the empty list) plus the closed-over parser state. -/
structure ESState where
  buffer : List Nat
  core : Core
deriving DecidableEq

/-- State at the start of `handleResponse`: `eventId = null`,
`eventName = ''`, `eventData = ''`, no partial buffer, `lastEventId = null`
(as set by the constructor), no events emitted. -/
def initialCore : Core :=
  { eventId := none
    eventName := some []
    eventData := []
    discardTrailingNewline := false
    lastEventId := none
    events := [] }

def initialState : ESState :=
  { buffer := [], core := initialCore }

/-- One `write(chunk)` delivery: concatenate the retained buffer with the
chunk and scan from position 0. -/
def write (st : ESState) (chunk : List Nat) : ESState :=
  let r := scanBytes st.core [] (st.buffer ++ chunk)
  { buffer := r.1, core := r.2 }

/-- Deliver a sequence of chunks one at a time. -/
def feed (st : ESState) (chunks : List (List Nat)) : ESState :=
  chunks.foldl write st

/-! ## Connection lifecycle (`connect`, src lines 208-229) -/

/-- src: `ReadyStates = {CONNECTING: 0, CONNECTED: 1, DISCONNECTED: 2}`. -/
inductive ReadyState
  | connecting
  | connected
  | disconnected
deriving DecidableEq

/-- JS truthiness of `this.lastEventId`: `null` and `''` are falsy. -/
def truthyStr : Option (List Nat) → Bool
  | none => false
  | some s => !s.isEmpty

/-- `const headers = {}; if (this.lastEventId) headers['Last-Event-ID'] = this.lastEventId;` -/
def requestHeaders (lastEventId : Option (List Nat)) : List (List Nat × List Nat) :=
  if truthyStr lastEventId then [(strLastEventID, lastEventId.getD [])] else []

/-- Observable actions of one `connect()` attempt, in program order:
notifications emitted, `this.readyState` assignments, the transport request
opened by `undici.stream`, and the backoff policy calls. -/
inductive Action
  | emitConnecting
  | emitConnected
  | emitError
  | emitDisconnected
  | setState (s : ReadyState)
  | openRequest (headers : List (List Nat × List Nat))
  | backoffReset
  | heartbeatArm
  | backoffSchedule
deriving DecidableEq

/-- How the awaited `undici.stream(...)` call turns out, abstracting the
transport: rejected before a response (network error), `handleResponse`
threw (bad status code or content type), or a valid response was followed
by a stream that later terminated (with `failed = true` when it ended in an
error or watchdog abort rather than a clean end). -/
inductive Outcome
  | rejected
  | badResponse
  | connectedThen (failed : Bool)
deriving DecidableEq

/-- Everything except a clean stream end is a failure of the attempt. -/
def Outcome.isFailure : Outcome → Bool
  | Outcome.connectedThen false => false
  | _ => true

/-- One `connect()` call: final `readyState` and the trace of actions.
Follows the source statement by statement: the idempotence guard, then
`readyState = CONNECTING`, `emit('connecting')`, header construction and
the request; on a valid response `handleResponse` runs `backoff.reset()`,
arms the heartbeat, sets `readyState = CONNECTED` and emits `connected`;
when the awaited call settles, a rejection is caught and emits `error`,
then unconditionally `emit('disconnected')`, `readyState = DISCONNECTED`
and `backoff.backoff()`. -/
def connectStep (rs : ReadyState) (lastEventId : Option (List Nat)) (o : Outcome) :
    ReadyState × List Action :=
  if rs = ReadyState.connecting ∨ rs = ReadyState.connected then (rs, [])
  else
    let pre := [Action.setState ReadyState.connecting, Action.emitConnecting,
                Action.openRequest (requestHeaders lastEventId)]
    let post := [Action.emitDisconnected, Action.setState ReadyState.disconnected,
                 Action.backoffSchedule]
    match o with
    | Outcome.rejected => (ReadyState.disconnected, pre ++ [Action.emitError] ++ post)
    | Outcome.badResponse => (ReadyState.disconnected, pre ++ [Action.emitError] ++ post)
    | Outcome.connectedThen failed =>
        (ReadyState.disconnected,
          pre ++ [Action.backoffReset, Action.heartbeatArm,
                  Action.setState ReadyState.connected, Action.emitConnected]
              ++ (if failed then [Action.emitError] else []) ++ post)

/-! ## Heartbeat monitor (`resetHeartbeatTimeout`, src lines 231-245) -/

/-- The watchdog state: whether `this.heartbeatInterval` is set, and
`this.lastHeartbeat` (`none` while still undefined). -/
structure HeartbeatState where
  intervalArmed : Bool
  lastHeartbeat : Option Int
deriving DecidableEq

/-- `this.lastHeartbeat > Date.now() - this.options.heartbeatTimeout`;
comparing `undefined` is false. -/
def heartbeatAlive (timeout now : Int) : Option Int → Bool
  | some t => decide (now - timeout < t)
  | none => false

/-- One tick of the interval timer: if the connection is still considered
alive the timer keeps running, otherwise it clears itself and fires the
expiry callback (second component `true` means `writable.destroy(err)` was
invoked). A cleared interval never ticks. -/
def heartbeatTick (timeout now : Int) (hb : HeartbeatState) : HeartbeatState × Bool :=
  if !hb.intervalArmed then (hb, false)
  else if heartbeatAlive timeout now hb.lastHeartbeat then (hb, false)
  else ({ intervalArmed := false, lastHeartbeat := hb.lastHeartbeat }, true)

/-- The mark-alive closure returned by `resetHeartbeatTimeout`. -/
def markAlive (now : Int) (hb : HeartbeatState) : HeartbeatState :=
  { hb with lastHeartbeat := some now }

/-- `resetHeartbeatTimeout(callback)`: early-returns (yielding `undefined`,
second component `false`) when an interval is already armed, else arms the
interval and returns the mark-alive closure. -/
def armHeartbeat (hb : HeartbeatState) : HeartbeatState × Bool :=
  if hb.intervalArmed then (hb, false)
  else ({ intervalArmed := true, lastHeartbeat := hb.lastHeartbeat }, true)

/-- One `connect()` attempt viewed through the heartbeat state.  On a valid
response `handleResponse` arms the watchdog; the teardown code on the
disconnect path (`catch`, `emit('disconnected')`, `readyState = DISCONNECTED`,
`backoff.backoff()`) contains no `clearInterval`, so the heartbeat state
passes through it unchanged. -/
def connectAttemptHeartbeat (rs : ReadyState) (hb : HeartbeatState) (o : Outcome) :
    ReadyState × HeartbeatState :=
  if rs = ReadyState.connecting ∨ rs = ReadyState.connected then (rs, hb)
  else
    match o with
    | Outcome.rejected => (ReadyState.disconnected, hb)
    | Outcome.badResponse => (ReadyState.disconnected, hb)
    | Outcome.connectedThen _ => (ReadyState.disconnected, (armHeartbeat hb).1)

/-! ## Parser lemmas -/

/-- A line body with no terminator bytes. -/
abbrev cleanLine (l : List Nat) : Prop :=
  ∀ b ∈ l, b ≠ LINE_FEED_CHARACTER ∧ b ≠ CARRIAGE_RETURN_CHARACTER

lemma set_dtn_false_eq (st : Core) (h : st.discardTrailingNewline = false) :
    { st with discardTrailingNewline := false } = st := by
  obtain ⟨a, b, c, d, e, f⟩ := st
  simp only at h
  rw [h]

lemma parseEventStreamLine_dtn (lineBuf : List Nat) (st : Core) :
    (parseEventStreamLine lineBuf st).discardTrailingNewline = st.discardTrailingNewline := by
  unfold parseEventStreamLine
  dsimp only
  repeat' split
  all_goals rfl

/-- Scanning a concatenation equals scanning the parts in sequence,
threading the state and the partial line through. -/
lemma scanBytes_append (xs : List Nat) : ∀ (ys : List Nat) (st : Core) (line : List Nat),
    scanBytes st line (xs ++ ys) =
      scanBytes (scanBytes st line xs).2 (scanBytes st line xs).1 ys := by
  induction xs with
  | nil => intro ys st line; rfl
  | cons b rest ih =>
    intro ys st line
    by_cases h1 : st.discardTrailingNewline ∧ b = LINE_FEED_CHARACTER
    · simp only [List.cons_append, scanBytes, if_pos h1]
      exact ih ys _ line
    · by_cases h2 : b = CARRIAGE_RETURN_CHARACTER
      · simp only [List.cons_append, scanBytes, if_neg h1, if_pos h2]
        exact ih ys _ []
      · by_cases h3 : b = LINE_FEED_CHARACTER
        · simp only [List.cons_append, scanBytes, if_neg h1, if_neg h2, if_pos h3]
          exact ih ys _ []
        · simp only [List.cons_append, scanBytes, if_neg h1, if_neg h2, if_neg h3]
          exact ih ys _ _

/-- The retained partial line contains no terminator bytes. -/
lemma scanBytes_line_clean (xs : List Nat) : ∀ (st : Core) (line : List Nat),
    cleanLine line → cleanLine (scanBytes st line xs).1 := by
  induction xs with
  | nil => intro st line h; exact h
  | cons b rest ih =>
    intro st line h
    by_cases h1 : st.discardTrailingNewline ∧ b = LINE_FEED_CHARACTER
    · simp only [scanBytes, if_pos h1]; exact ih _ _ h
    · by_cases h2 : b = CARRIAGE_RETURN_CHARACTER
      · simp only [scanBytes, if_neg h1, if_pos h2]
        exact ih _ _ (by intro x hx; cases hx)
      · by_cases h3 : b = LINE_FEED_CHARACTER
        · simp only [scanBytes, if_neg h1, if_neg h2, if_pos h3]
          exact ih _ _ (by intro x hx; cases hx)
        · simp only [scanBytes, if_neg h1, if_neg h2, if_neg h3]
          refine ih _ _ ?_
          intro x hx
          rcases List.mem_append.mp hx with hx | hx
          · exact h x hx
          · rcases List.mem_singleton.mp hx with rfl
            exact ⟨h3, h2⟩

/-- The flag can only be armed at the end of a delivery if the partial line
is empty (the flag is armed by a terminator, which also empties the line). -/
lemma scanBytes_dtn_nil (xs : List Nat) : ∀ (st : Core) (line : List Nat),
    (st.discardTrailingNewline = true → line = []) →
    ((scanBytes st line xs).2.discardTrailingNewline = true → (scanBytes st line xs).1 = []) := by
  induction xs with
  | nil => intro st line h; exact h
  | cons b rest ih =>
    intro st line h
    by_cases h1 : st.discardTrailingNewline ∧ b = LINE_FEED_CHARACTER
    · simp only [scanBytes, if_pos h1]
      exact ih _ _ (by intro hc; cases hc)
    · by_cases h2 : b = CARRIAGE_RETURN_CHARACTER
      · simp only [scanBytes, if_neg h1, if_pos h2]
        exact ih _ _ (fun _ => rfl)
      · by_cases h3 : b = LINE_FEED_CHARACTER
        · simp only [scanBytes, if_neg h1, if_neg h2, if_pos h3]
          refine ih _ _ ?_
          rw [parseEventStreamLine_dtn]
          intro hc; cases hc
        · simp only [scanBytes, if_neg h1, if_neg h2, if_neg h3]
          exact ih _ _ (by intro hc; cases hc)

/-- Re-scanning already-retained terminator-free bytes just re-accumulates
them into the partial line. -/
lemma scanBytes_rescan (l : List Nat) : ∀ (st : Core) (acc ys : List Nat),
    cleanLine l → st.discardTrailingNewline = false →
    scanBytes st acc (l ++ ys) = scanBytes st (acc ++ l) ys := by
  induction l with
  | nil => intro st acc ys _ _; rw [List.append_nil]; rfl
  | cons b l' ih =>
    intro st acc ys hc hd
    have hb := hc b (List.mem_cons_self b l')
    have h1 : ¬(st.discardTrailingNewline ∧ b = LINE_FEED_CHARACTER) := by
      rw [hd]; simp
    simp only [List.cons_append, scanBytes, if_neg h1, if_neg hb.2, if_neg hb.1, List.append_eq]
    rw [set_dtn_false_eq st hd]
    rw [ih st (acc ++ [b]) ys (fun x hx => hc x (List.mem_cons_of_mem b hx)) hd]
    rw [List.append_assoc]
    rfl

/-- Two deliveries compose into one. -/
lemma write_write (st : ESState) (c1 c2 : List Nat) :
    write (write st c1) c2 = write st (c1 ++ c2) := by
  unfold write
  dsimp only
  rw [← List.append_assoc, scanBytes_append (st.buffer ++ c1) c2]
  by_cases hd : (scanBytes st.core [] (st.buffer ++ c1)).2.discardTrailingNewline = true
  · rw [scanBytes_dtn_nil (st.buffer ++ c1) st.core [] (by intro _; rfl) hd]
    rfl
  · rw [scanBytes_rescan (scanBytes st.core [] (st.buffer ++ c1)).1 _ [] c2
      (scanBytes_line_clean (st.buffer ++ c1) st.core [] (by intro x hx; cases hx))
      (Bool.not_eq_true _ ▸ hd)]
    rfl

/-- Delivering any chunking of a byte sequence equals delivering it whole,
for any state that is a fixpoint of the empty delivery. -/
lemma feed_flatten (chunks : List (List Nat)) : ∀ (st : ESState),
    write st [] = st → feed st chunks = write st chunks.flatten := by
  induction chunks with
  | nil => intro st h; exact h.symm
  | cons c cs ih =>
    intro st h
    show feed (write st c) cs = _
    rw [ih (write st c) (by rw [write_write]; rw [List.append_nil])]
    rw [write_write, List.flatten_cons]

lemma write_initial_nil : write initialState [] = initialState := rfl

/-! ## Record-level lemmas for the `data` field -/

/-- Parsing the line `data:<v>` appends `v` and a line feed to the pending
data accumulator (provided `v` does not begin with the one stripped space). -/
lemma parse_data_line (v : List Nat) (st : Core) (hv : v.head? ≠ some SPACE_CHARACTER) :
    parseEventStreamLine (strData ++ COLON_CHARACTER :: v) st =
      { st with eventData := st.eventData ++ v ++ [LINE_FEED_CHARACTER] } := by
  cases v with
  | nil => rfl
  | cons b bs =>
    have hb : b ≠ SPACE_CHARACTER := by
      intro h
      exact hv (by rw [h]; rfl)
    show parseEventStreamLine (100 :: 97 :: 116 :: 97 :: 58 :: b :: bs) st = _
    unfold parseEventStreamLine
    rw [show (100 :: 97 :: 116 :: 97 :: 58 :: b :: bs).findIdx?
        (fun c => c == COLON_CHARACTER) = some (4 : Nat) from rfl]
    simp only [List.length_cons]
    rw [if_neg (show ¬(bs.length + 1 + 1 + 1 + 1 + 1 + 1 = 0) from by omega)]
    rw [if_pos (show (0 : Int) < ((4 : Nat) : Int) from by norm_num)]
    rw [show (100 :: 97 :: 116 :: 97 :: 58 :: b :: bs).getD
        ((((4 : Nat) : Int)).toNat + 1) LINE_FEED_CHARACTER = b from rfl]
    rw [if_pos hb]
    rfl

/-- The byte stream of one record consisting solely of `data:` lines, each
terminated by a line feed. -/
def dataLines (vs : List (List Nat)) : List Nat :=
  (vs.map (fun v => strData ++ COLON_CHARACTER :: v ++ [LINE_FEED_CHARACTER])).flatten

/-- Scanning a run of `data:` lines accumulates their values, each followed
by a line feed, into the pending data accumulator. -/
lemma scanBytes_data_lines (vs : List (List Nat)) : ∀ (st : Core) (tail : List Nat),
    st.discardTrailingNewline = false →
    (∀ v ∈ vs, cleanLine v ∧ v.head? ≠ some SPACE_CHARACTER) →
    scanBytes st [] (dataLines vs ++ tail) =
      scanBytes
        { st with eventData :=
            st.eventData ++ (vs.map (fun v => v ++ [LINE_FEED_CHARACTER])).flatten }
        [] tail := by
  induction vs with
  | nil =>
    intro st tail _ _
    show scanBytes st [] ([] ++ tail) = _
    rw [List.nil_append, List.map_nil, List.flatten_nil, List.append_nil]
  | cons v vs' ih =>
    intro st tail hd hv
    have hvh := hv v (List.mem_cons_self v vs')
    have hline : cleanLine (strData ++ COLON_CHARACTER :: v) := by
      intro x hx
      rcases List.mem_append.mp hx with hx | hx
      · fin_cases hx <;> simp [LINE_FEED_CHARACTER, CARRIAGE_RETURN_CHARACTER]
      · rcases List.mem_cons.mp hx with rfl | hx
        · simp [LINE_FEED_CHARACTER, CARRIAGE_RETURN_CHARACTER, COLON_CHARACTER]
        · exact hvh.1 x hx
    have hstep : dataLines (v :: vs') ++ tail =
        (strData ++ COLON_CHARACTER :: v) ++
          (LINE_FEED_CHARACTER :: (dataLines vs' ++ tail)) := by
      show (strData ++ COLON_CHARACTER :: v ++ [LINE_FEED_CHARACTER]) ++ dataLines vs' ++ tail = _
      simp [List.append_assoc]
    rw [hstep, scanBytes_rescan _ _ _ _ hline hd, List.nil_append]
    have hskip : ¬(st.discardTrailingNewline = true ∧ True) := by
      rw [hd]; simp
    show scanBytes st (strData ++ COLON_CHARACTER :: v)
        (LINE_FEED_CHARACTER :: (dataLines vs' ++ tail)) = _
    simp only [scanBytes]
    rw [if_neg hskip]
    rw [if_neg (by decide : ¬(LINE_FEED_CHARACTER = CARRIAGE_RETURN_CHARACTER))]
    rw [if_pos trivial]
    rw [set_dtn_false_eq st hd, parse_data_line v st hvh.2]
    rw [ih { st with eventData := st.eventData ++ v ++ [LINE_FEED_CHARACTER] } tail hd
      (fun x hx => hv x (List.mem_cons_of_mem v hx))]
    simp [List.append_assoc]

/-! ## Line-terminator uniformity -/

/-- One of the three SSE line endings. -/
inductive Terminator
  | lf
  | cr
  | crlf
deriving DecidableEq

def Terminator.bytes : Terminator → List Nat
  | Terminator.lf => [LINE_FEED_CHARACTER]
  | Terminator.cr => [CARRIAGE_RETURN_CHARACTER]
  | Terminator.crlf => [CARRIAGE_RETURN_CHARACTER, LINE_FEED_CHARACTER]

/-- A stream of lines, each with its own choice of terminator. -/
def encodeLines (ls : List (List Nat × Terminator)) : List Nat :=
  (ls.map (fun p => p.1 ++ p.2.bytes)).flatten

/-- The same lines, all terminated by a line feed. -/
def encodeLinesLF (ls : List (List Nat × Terminator)) : List Nat :=
  (ls.map (fun p => p.1 ++ [LINE_FEED_CHARACTER])).flatten

abbrev cleanLines (ls : List (List Nat × Terminator)) : Prop :=
  ∀ p ∈ ls, cleanLine p.1

/-- The one genuinely ambiguous encoding: a bare-carriage-return terminator
directly followed by an empty line terminated by a bare line feed spells the
same bytes as one carriage-return-line-feed pair, so such a pair of lines is
excluded from the uniformity statement. -/
def badPair : (List Nat × Terminator) → (List Nat × Terminator) → Bool
  | (_, Terminator.cr), ([], Terminator.lf) => true
  | _, _ => false

def noCrLfSplit : List (List Nat × Terminator) → Bool
  | p :: q :: rest => !badPair p q && noCrLfSplit (q :: rest)
  | _ => true

/-- Forget the scanner flag (the only state component that legitimately
differs when a stream ends in a bare carriage return). -/
def stripPair (r : List Nat × Core) : List Nat × Core :=
  (r.1, { r.2 with discardTrailingNewline := false })

def stripFlag (s : ESState) : ESState :=
  { s with core := { s.core with discardTrailingNewline := false } }

/-- An armed discard flag is observationally irrelevant when the next byte
is not a line feed. -/
lemma scanBytes_true_flag (bs : List Nat) (st : Core)
    (h : bs.head? ≠ some LINE_FEED_CHARACTER) (hd : st.discardTrailingNewline = false) :
    stripPair (scanBytes { st with discardTrailingNewline := true } [] bs) =
    stripPair (scanBytes st [] bs) := by
  obtain ⟨f1, f2, f3, f4, f5, f6⟩ := st
  simp only at hd
  subst hd
  cases bs with
  | nil => rfl
  | cons b rest =>
    have hb : ¬(b = LINE_FEED_CHARACTER) := by
      intro hbe
      exact h (by rw [hbe]; rfl)
    simp [scanBytes, hb]

/-- The first byte of an encoded stream is a line feed only when the first
line is empty and terminated by a bare line feed. -/
lemma encodeLines_head_ne_lf (ls : List (List Nat × Terminator)) (hc : cleanLines ls)
    (hq : ∀ q ∈ ls.head?, ¬(q.1 = [] ∧ q.2 = Terminator.lf)) :
    (encodeLines ls).head? ≠ some LINE_FEED_CHARACTER := by
  cases ls with
  | nil => simp [encodeLines]
  | cons q rest =>
    obtain ⟨l2, t2⟩ := q
    cases l2 with
    | cons x xs =>
      have hx := (hc (x :: xs, t2) (List.mem_cons_self _ _)) x (List.mem_cons_self x xs)
      simp [encodeLines, hx.1]
    | nil =>
      have ht2 : t2 ≠ Terminator.lf := by
        intro hte
        exact hq ([], t2) rfl ⟨rfl, hte⟩
      cases t2 with
      | lf => exact absurd rfl ht2
      | cr => simp [encodeLines, Terminator.bytes]; decide
      | crlf => simp [encodeLines, Terminator.bytes]; decide

/-- Terminator uniformity: parsing a stream is, up to the final scanner
flag, independent of which of the three line endings terminates each line. -/
lemma scanBytes_terminators (ls : List (List Nat × Terminator)) : ∀ (st : Core),
    cleanLines ls → noCrLfSplit ls = true → st.discardTrailingNewline = false →
    stripPair (scanBytes st [] (encodeLines ls)) =
    stripPair (scanBytes st [] (encodeLinesLF ls)) := by
  induction ls with
  | nil => intro st _ _ _; rfl
  | cons p rest ih =>
    intro st hc hnc hd
    obtain ⟨l, t⟩ := p
    have hcl : cleanLine l := hc (l, t) (List.mem_cons_self _ _)
    have hcr : cleanLines rest := fun q hq => hc q (List.mem_cons_of_mem _ hq)
    have hncr : noCrLfSplit rest = true := by
      cases rest with
      | nil => rfl
      | cons q r2 =>
        have := hnc
        simp only [noCrLfSplit, Bool.and_eq_true] at this
        exact this.2
    have henc : encodeLines ((l, t) :: rest) = l ++ (t.bytes ++ encodeLines rest) := by
      simp [encodeLines]
    have hencLF : encodeLinesLF ((l, t) :: rest) =
        l ++ (LINE_FEED_CHARACTER :: encodeLinesLF rest) := by
      simp [encodeLinesLF]
    rw [henc, hencLF, scanBytes_rescan l st [] _ hcl hd, scanBytes_rescan l st [] _ hcl hd,
      List.nil_append]
    have hskip : ¬(st.discardTrailingNewline = true ∧ True) := by
      rw [hd]; simp
    have hparse_dtn : (parseEventStreamLine l st).discardTrailingNewline = false := by
      rw [parseEventStreamLine_dtn, hd]
    -- the all-line-feed side takes the plain line-feed branch
    have hrhs : scanBytes st l (LINE_FEED_CHARACTER :: encodeLinesLF rest) =
        scanBytes (parseEventStreamLine l st) [] (encodeLinesLF rest) := by
      simp only [scanBytes]
      rw [if_neg hskip]
      rw [if_neg (by decide : ¬(LINE_FEED_CHARACTER = CARRIAGE_RETURN_CHARACTER))]
      rw [if_pos trivial]
      rw [set_dtn_false_eq st hd]
    rw [hrhs]
    cases t with
    | lf =>
      have hlhs : scanBytes st l (Terminator.bytes Terminator.lf ++ encodeLines rest) =
          scanBytes (parseEventStreamLine l st) [] (encodeLines rest) := by
        show scanBytes st l (LINE_FEED_CHARACTER :: encodeLines rest) = _
        simp only [scanBytes]
        rw [if_neg hskip]
        rw [if_neg (by decide : ¬(LINE_FEED_CHARACTER = CARRIAGE_RETURN_CHARACTER))]
        rw [if_pos trivial]
        rw [set_dtn_false_eq st hd]
      rw [hlhs]
      exact ih (parseEventStreamLine l st) hcr hncr hparse_dtn
    | crlf =>
      have hlhs : scanBytes st l (Terminator.bytes Terminator.crlf ++ encodeLines rest) =
          scanBytes (parseEventStreamLine l st) [] (encodeLines rest) := by
        show scanBytes st l (CARRIAGE_RETURN_CHARACTER :: LINE_FEED_CHARACTER ::
          encodeLines rest) = _
        simp only [scanBytes]
        rw [if_neg (by rw [hd]; simp : ¬(st.discardTrailingNewline = true ∧
          CARRIAGE_RETURN_CHARACTER = LINE_FEED_CHARACTER))]
        rw [if_pos trivial]
        rw [set_dtn_false_eq st hd]
        -- the armed flag discards the following line feed
        rw [if_pos (show True ∧ True from ⟨trivial, trivial⟩)]
        rw [set_dtn_false_eq (parseEventStreamLine l st) hparse_dtn]
      rw [hlhs]
      exact ih (parseEventStreamLine l st) hcr hncr hparse_dtn
    | cr =>
      have hlhs : scanBytes st l (Terminator.bytes Terminator.cr ++ encodeLines rest) =
          scanBytes { parseEventStreamLine l st with discardTrailingNewline := true } []
            (encodeLines rest) := by
        show scanBytes st l (CARRIAGE_RETURN_CHARACTER :: encodeLines rest) = _
        simp only [scanBytes]
        rw [if_neg (by rw [hd]; simp : ¬(st.discardTrailingNewline = true ∧
          CARRIAGE_RETURN_CHARACTER = LINE_FEED_CHARACTER))]
        rw [if_pos trivial]
        rw [set_dtn_false_eq st hd]
      rw [hlhs]
      have hhead : (encodeLines rest).head? ≠ some LINE_FEED_CHARACTER := by
        refine encodeLines_head_ne_lf rest hcr ?_
        intro q hq hcontra
        cases rest with
        | nil => cases hq
        | cons q0 r2 =>
          have hq0 : q0 = q := by
            simpa using hq
          have := hnc
          simp only [noCrLfSplit, Bool.and_eq_true] at this
          have hbp : badPair (l, Terminator.cr) q0 = true := by
            rw [hq0]
            obtain ⟨qa, qb⟩ := q
            obtain ⟨hq1, hq2⟩ := hcontra
            simp only at hq1 hq2
            subst hq1; subst hq2
            rfl
          rw [hbp] at this
          simp at this
      rw [scanBytes_true_flag (encodeLines rest) (parseEventStreamLine l st) hhead hparse_dtn]
      exact ih (parseEventStreamLine l st) hcr hncr hparse_dtn

/-- A blank line with non-empty accumulated data and no pending id emits
the assembled event and resets the accumulator and the event name. -/
lemma parse_blank_emit (st : Core) (hne : 0 < st.eventData.length)
    (hid : st.eventId = none) :
    parseEventStreamLine [] st =
      { st with
        events := st.events ++
          [{ channel := channelOf st.eventName
             id := st.eventId
             name := st.eventName
             data := st.eventData.dropLast }]
        eventData := []
        eventName := none } := by
  simp [parseEventStreamLine, hne, hid]

/-! ## The claims -/

/-- C1: for every byte sequence and every way of splitting it into delivery
chunks (including one-byte chunks), feeding the chunks one at a time through
the frame parser and event assembler produces exactly the same final state -
the same sequence of emitted events, pending record, last event id, and
retained partial buffer - as feeding the whole sequence as a single chunk;
in particular the partial buffer never drops unconsumed bytes. -/
theorem claim1_chunk_invariance (chunks : List (List Nat)) :
    feed initialState chunks = write initialState chunks.flatten :=
  feed_flatten chunks initialState rfl

/-- C2: for every record consisting of `data:` lines followed by a blank
line, exactly one event is emitted and its data equals the concatenation of
the line values, each followed by a line feed, with the single final
trailing line feed removed. -/
theorem claim2_data_concatenation (vs : List (List Nat)) (hne : vs ≠ [])
    (hv : ∀ v ∈ vs, cleanLine v ∧ v.head? ≠ some SPACE_CHARACTER) :
    (write initialState (dataLines vs ++ [LINE_FEED_CHARACTER])).core.events =
      [{ channel := strMessage
         id := none
         name := some []
         data := ((vs.map (fun v => v ++ [LINE_FEED_CHARACTER])).flatten).dropLast }] := by
  have e0 : write initialState (dataLines vs ++ [LINE_FEED_CHARACTER]) =
      { buffer := (scanBytes initialCore [] (dataLines vs ++ [LINE_FEED_CHARACTER])).1
        core := (scanBytes initialCore [] (dataLines vs ++ [LINE_FEED_CHARACTER])).2 } := rfl
  rw [e0, scanBytes_data_lines vs initialCore [LINE_FEED_CHARACTER] rfl hv]
  have hstep : scanBytes
      { initialCore with eventData :=
          initialCore.eventData ++ (vs.map (fun v => v ++ [LINE_FEED_CHARACTER])).flatten }
      [] [LINE_FEED_CHARACTER] =
      ([], parseEventStreamLine []
        { initialCore with eventData :=
            initialCore.eventData ++ (vs.map (fun v => v ++ [LINE_FEED_CHARACTER])).flatten }) :=
    rfl
  rw [hstep]
  have hD : 0 < ({ initialCore with eventData :=
      initialCore.eventData ++
        (vs.map (fun v => v ++ [LINE_FEED_CHARACTER])).flatten } : Core).eventData.length := by
    cases vs with
    | nil => exact absurd rfl hne
    | cons v vs' => simp [initialCore]
  rw [parse_blank_emit _ hD rfl]
  simp [initialCore, channelOf]

theorem claim2_data_concatenation_witness :
    (([[97], [98]] : List (List Nat)) ≠ [] ∧
      ∀ v ∈ ([[97], [98]] : List (List Nat)), cleanLine v ∧ v.head? ≠ some SPACE_CHARACTER) ∧
    (write initialState (dataLines [[97], [98]] ++ [LINE_FEED_CHARACTER])).core.events =
      [{ channel := strMessage, id := none, name := some [], data := [97, 10, 98] }] := by
  refine ⟨⟨by decide, by decide⟩, ?_⟩
  rw [claim2_data_concatenation [[97], [98]] (by decide) (by decide)]
  decide

/-- C3: the parser treats the line terminators line feed, carriage return,
and carriage-return-line-feed uniformly: for any stream of lines (excluding
the inherently ambiguous spelling of a bare carriage-return terminator
directly followed by an empty line-feed-terminated line) and any chunking of
its bytes - including one splitting the carriage return and the line feed of
one terminator across two chunks, resumed via the carried discard flag - the
resulting state agrees, up to that flag, with parsing the same lines all
terminated by plain line feeds; a carriage-return-line-feed pair therefore
terminates exactly one line and never by itself produces a blank line. -/
theorem claim3_terminator_uniformity (ls : List (List Nat × Terminator))
    (hc : cleanLines ls) (hs : noCrLfSplit ls = true)
    (chunks : List (List Nat)) (hch : chunks.flatten = encodeLines ls) :
    stripFlag (feed initialState chunks) =
    stripFlag (write initialState (encodeLinesLF ls)) := by
  rw [feed_flatten chunks initialState rfl, hch]
  have h := scanBytes_terminators ls initialCore hc hs rfl
  have e1 : write initialState (encodeLines ls) =
      { buffer := (scanBytes initialCore [] (encodeLines ls)).1
        core := (scanBytes initialCore [] (encodeLines ls)).2 } := rfl
  have e2 : write initialState (encodeLinesLF ls) =
      { buffer := (scanBytes initialCore [] (encodeLinesLF ls)).1
        core := (scanBytes initialCore [] (encodeLinesLF ls)).2 } := rfl
  rw [e1, e2]
  have h1 := congrArg Prod.fst h
  have h2 := congrArg Prod.snd h
  simp only [stripPair] at h1 h2
  unfold stripFlag
  dsimp only
  rw [h1, h2]

theorem claim3_terminator_uniformity_witness :
    (cleanLines [([100, 97, 116, 97, 58, 97], Terminator.crlf), ([], Terminator.cr)] ∧
     noCrLfSplit [([100, 97, 116, 97, 58, 97], Terminator.crlf), ([], Terminator.cr)] = true ∧
     ([[100, 97, 116, 97, 58, 97, 13], [10, 13]] : List (List Nat)).flatten =
       encodeLines [([100, 97, 116, 97, 58, 97], Terminator.crlf), ([], Terminator.cr)]) ∧
    stripFlag (feed initialState [[100, 97, 116, 97, 58, 97, 13], [10, 13]]) =
      stripFlag (write initialState
        (encodeLinesLF [([100, 97, 116, 97, 58, 97], Terminator.crlf), ([], Terminator.cr)])) :=
  ⟨⟨by decide, by decide, by decide⟩,
    claim3_terminator_uniformity
      [([100, 97, 116, 97, 58, 97], Terminator.crlf), ([], Terminator.cr)]
      (by decide) (by decide)
      [[100, 97, 116, 97, 58, 97, 13], [10, 13]] (by decide)⟩

/-- C4 (observed code behavior at the failing input): the incremental
parser has no NUL filter on `id` fields - after the record
`id:123<NUL>` followed by a blank line, `lastEventId` has been updated to
the NUL-containing value `123<NUL>`, where the claim requires it to remain
unset. -/
theorem claim4_nul_id_updates_lastEventId :
    (write initialState [105, 100, 58, 49, 50, 51, 0, 10, 10]).core.lastEventId =
      some [49, 50, 51, 0] := by decide

/-- C5 (observed code behavior at the failing input): a non-blank line with
no colon is discarded entirely by the `fieldLength > 0` guard, not processed
as a field with an empty value - the stream `data`, `data:x`, blank line
produces one event whose data is `x`, where the claim requires the bare
`data` line to contribute a leading line feed (data `\nx`). -/
theorem claim5_bare_field_line_dropped :
    (write initialState [100, 97, 116, 97, 10, 100, 97, 116, 97, 58, 120, 10, 10]).core.events =
      [{ channel := strMessage, id := none, name := some [], data := [120] }] := by decide

/-- C6 (observed code behavior at the failing input): after the record
`id:4<NUL>` followed by a blank line, `lastEventId` has been updated to the
NUL-containing value and the next connection attempt sends it in the
`Last-Event-ID` header, where the claim requires `lastEventId` to be updated
only by ids not containing NUL. -/
theorem claim6_nul_id_resent_in_header :
    (write initialState [105, 100, 58, 52, 0, 10, 10]).core.lastEventId = some [52, 0] ∧
    requestHeaders ((write initialState [105, 100, 58, 52, 0, 10, 10]).core.lastEventId) =
      [(strLastEventID, [52, 0])] := by decide

/-- C7: a `connect()` call made while the ready state is `Connecting` or
`Connected` is a no-op - the state is unchanged and the trace is empty, so
no notification is emitted and no second transport request is opened. -/
theorem claim7_connect_idempotent (rs : ReadyState) (lei : Option (List Nat)) (o : Outcome)
    (h : rs = ReadyState.connecting ∨ rs = ReadyState.connected) :
    connectStep rs lei o = (rs, []) := by
  unfold connectStep
  rw [if_pos h]

theorem claim7_connect_idempotent_witness :
    (ReadyState.connected = ReadyState.connecting ∨
      ReadyState.connected = ReadyState.connected) ∧
    connectStep ReadyState.connected (some [52, 50]) (Outcome.connectedThen false) =
      (ReadyState.connected, []) :=
  ⟨by decide, claim7_connect_idempotent ReadyState.connected (some [52, 50])
    (Outcome.connectedThen false) (by decide)⟩

/-- C8 counterexample: the claim sequences a failure as error notification,
then the state assignment to `Disconnected`, then the `disconnected`
notification; but on a failed attempt the code emits `disconnected` before
assigning the state, so the claimed order does not occur in the trace while
the reversed order does. -/
theorem claim8_order_counterexample :
    ¬ List.Sublist
        [Action.emitError, Action.setState ReadyState.disconnected, Action.emitDisconnected]
        (connectStep ReadyState.disconnected none Outcome.rejected).2 ∧
    List.Sublist
        [Action.emitError, Action.emitDisconnected, Action.setState ReadyState.disconnected]
        (connectStep ReadyState.disconnected none Outcome.rejected).2 := by decide

/-- C8 (amended): every failure of a connection attempt - transport error,
protocol error, or a failure after reaching `Connected` (including heartbeat
abort) - is non-fatal and handled identically: the trace ends with the
`error` notification, then the `disconnected` notification, then the state
assignment to `Disconnected`, then the backoff-scheduled reconnection; the
attempt always ends in the `Disconnected` state, never in a terminal one. -/
theorem claim8_failure_nonfatal (lei : Option (List Nat)) (o : Outcome)
    (h : o.isFailure = true) :
    (connectStep ReadyState.disconnected lei o).1 = ReadyState.disconnected ∧
    ∃ pre, (connectStep ReadyState.disconnected lei o).2 =
      pre ++ [Action.emitError, Action.emitDisconnected,
              Action.setState ReadyState.disconnected, Action.backoffSchedule] := by
  cases o with
  | rejected =>
    exact ⟨rfl, [Action.setState ReadyState.connecting, Action.emitConnecting,
      Action.openRequest (requestHeaders lei)], rfl⟩
  | badResponse =>
    exact ⟨rfl, [Action.setState ReadyState.connecting, Action.emitConnecting,
      Action.openRequest (requestHeaders lei)], rfl⟩
  | connectedThen failed =>
    cases failed with
    | false => cases h
    | true =>
      exact ⟨rfl, [Action.setState ReadyState.connecting, Action.emitConnecting,
        Action.openRequest (requestHeaders lei), Action.backoffReset, Action.heartbeatArm,
        Action.setState ReadyState.connected, Action.emitConnected], rfl⟩

theorem claim8_failure_nonfatal_witness :
    Outcome.isFailure Outcome.rejected = true ∧
    ((connectStep ReadyState.disconnected none Outcome.rejected).1 =
        ReadyState.disconnected ∧
      ∃ pre, (connectStep ReadyState.disconnected none Outcome.rejected).2 =
        pre ++ [Action.emitError, Action.emitDisconnected,
                Action.setState ReadyState.disconnected, Action.backoffSchedule]) :=
  ⟨rfl, claim8_failure_nonfatal none Outcome.rejected rfl⟩

/-- C9 (observed code behavior at the failing input): after a successful
connection whose stream then ends, the teardown path leaves the heartbeat
interval armed (nothing in the disconnect path clears it), and a later tick
with a stale liveness timestamp fires the expiry callback - destroying the
already-closed transport - where the claim requires the timer to stop
unconditionally at teardown so that the callback never fires after close. -/
theorem claim9_heartbeat_not_stopped :
    (connectAttemptHeartbeat ReadyState.disconnected
        { intervalArmed := false, lastHeartbeat := none } (Outcome.connectedThen false)).1 =
      ReadyState.disconnected ∧
    (connectAttemptHeartbeat ReadyState.disconnected
        { intervalArmed := false, lastHeartbeat := none }
        (Outcome.connectedThen false)).2.intervalArmed = true ∧
    heartbeatTick 30000 100000
      (connectAttemptHeartbeat ReadyState.disconnected
        { intervalArmed := false, lastHeartbeat := none } (Outcome.connectedThen false)).2 =
      ({ intervalArmed := false, lastHeartbeat := none }, true) := by decide

/-- C10: the `Last-Event-ID` request header is included exactly when the
stored last event id is a non-empty string - never when it is unset or
empty; and the empty-string case is reachable, because a record whose `id:`
field has an empty value stores the empty string, after which no header is
sent. -/
theorem claim10_header_only_nonempty :
    (∀ lei : Option (List Nat), requestHeaders lei = [] ↔ (lei = none ∨ lei = some [])) ∧
    (write initialState [105, 100, 58, 10, 10]).core.lastEventId = some [] ∧
    requestHeaders ((write initialState [105, 100, 58, 10, 10]).core.lastEventId) = [] := by
  refine ⟨?_, by decide, by decide⟩
  intro lei
  cases lei with
  | none => simp [requestHeaders, truthyStr]
  | some s =>
    cases s with
    | nil => simp [requestHeaders, truthyStr]
    | cons b bs => simp [requestHeaders, truthyStr]

end EventSourceSpec
